import Mathlib

/-!
Shallow embedding of the storefront backend in `backend/main.py`:
the login rate limiter, the admin session store, the text-field
sanitiser, the product-field validator, the filename sanitiser and the
streaming image-upload writer.  Wall-clock instants are modelled as
natural numbers of seconds; byte streams are modelled by the sizes of
the chunks the reading loop receives.
-/

namespace Storefront

/-! ## Configuration constants (backend/main.py lines 42-55) -/

/-- Session max age: `SESSION_AGE = timedelta(days=7)`, in seconds. -/
def SESSION_AGE : Nat := 7 * 24 * 60 * 60

/-- Login window: `LOGIN_WINDOW_SECONDS = 15 * 60`. -/
def LOGIN_WINDOW_SECONDS : Nat := 15 * 60

/-- Attempt cap: `MAX_LOGIN_ATTEMPTS = 5`. -/
def MAX_LOGIN_ATTEMPTS : Nat := 5

/-- Allowed upload content types, `ALLOWED_IMAGE_CONTENT_TYPES`. -/
def ALLOWED_IMAGE_CONTENT_TYPES : List String :=
  ["image/jpeg", "image/png", "image/webp"]

/-- Upload ceiling: `MAX_IMAGE_SIZE_BYTES = 5 * 1024 * 1024`. -/
def MAX_IMAGE_SIZE_BYTES : Nat := 5 * 1024 * 1024

/-! ## Login rate limiter (backend/main.py lines 152-166)

The per-client state `login_attempts[client_ip]` is a deque of attempt
timestamps; we model one client's deque as a `List Nat` (front of the
deque = head of the list) and the call `check_login_rate_limit` as a
function from the current time and the stored deque to a verdict and
the updated deque. -/

/-- Outcome of one rate-limit check: either the attempt may proceed or
the HTTP 429 `Too many login attempts` exception is raised. -/
inductive CheckResult where
  | allowed
  | rateLimited
deriving DecidableEq, Repr

/-- The `while attempts and (now - attempts[0]).total_seconds() >
LOGIN_WINDOW_SECONDS: attempts.popleft()` loop: pop entries from the
front while the front entry is older than the window. -/
def dropOld (now : Nat) : List Nat → List Nat
  | [] => []
  | t :: rest =>
      if now - t > LOGIN_WINDOW_SECONDS then dropOld now rest else t :: rest

/-- Body of `check_login_rate_limit(client_ip)` for one client: drop
old attempts, then raise 429 if `len(attempts) >= MAX_LOGIN_ATTEMPTS`
(without recording), else append `now`. -/
def check_login_rate_limit (now : Nat) (attempts : List Nat) :
    CheckResult × List Nat :=
  let attempts := dropOld now attempts
  if MAX_LOGIN_ATTEMPTS ≤ attempts.length then
    (.rateLimited, attempts)
  else
    (.allowed, attempts ++ [now])

/-- Running `check_login_rate_limit` once per element of a list of
attempt times, threading the stored deque through. -/
def runChecks : List Nat → List Nat → List CheckResult × List Nat
  | [], attempts => ([], attempts)
  | t :: ts, attempts =>
      let r := check_login_rate_limit t attempts
      let rs := runChecks ts r.2
      (r.1 :: rs.1, rs.2)

/-! ## Admin sessions (backend/main.py lines 134-149, 299-300, 314-318)

`admin_sessions` maps a token to its issue time; we model it as an
association list (a later binding for the same key shadows an earlier
one on lookup, and removal deletes every binding of the key, matching
`dict` assignment and `dict.pop`). -/

/-- Lookup of `admin_sessions[token]` / the `token in admin_sessions`
test. -/
def lookupSession (sessions : List (String × Nat)) (tok : String) :
    Option Nat :=
  (sessions.find? (fun p => p.1 == tok)).map (fun p => p.2)

/-- Removal `admin_sessions.pop(token, None)`. -/
def removeSession (sessions : List (String × Nat)) (tok : String) :
    List (String × Nat) :=
  sessions.filter (fun p => p.1 != tok)

/-- Session issue on successful login (line 300):
`admin_sessions[token] = datetime.utcnow()`. -/
def issueSession (tok : String) (now : Nat)
    (sessions : List (String × Nat)) : List (String × Nat) :=
  (tok, now) :: sessions

/-- Outcome of `require_admin`: either the 401 `Unauthorized` or the
401 `Session expired` exception. The two carry distinct detail
messages in the source, so they are distinct constructors here. -/
inductive AuthError where
  | unauthorized
  | sessionExpired
deriving DecidableEq, Repr

/-- Body of `require_admin(request)`: the cookie token is absent or
falsy, or not a key of `admin_sessions`, gives `Unauthorized`; a
present token older than `SESSION_AGE` is evicted and gives
`Session expired`; otherwise the check passes.  Returns the verdict
together with the updated session map. -/
def require_admin (now : Nat) (token : Option String)
    (sessions : List (String × Nat)) :
    Except AuthError Unit × List (String × Nat) :=
  match token with
  | none => (.error .unauthorized, sessions)
  | some tok =>
      if tok = "" then (.error .unauthorized, sessions)
      else
        match lookupSession sessions tok with
        | none => (.error .unauthorized, sessions)
        | some issued =>
            if now - issued > SESSION_AGE then
              (.error .sessionExpired, removeSession sessions tok)
            else
              (.ok (), sessions)

/-- Body of `admin_logout` (lines 314-318): pop the token if it is
truthy and present. -/
def admin_logout (token : Option String)
    (sessions : List (String × Nat)) : List (String × Nat) :=
  match token with
  | none => sessions
  | some tok =>
      if tok = "" then sessions
      else
        match lookupSession sessions tok with
        | none => sessions
        | some _ => removeSession sessions tok

/-! ## Field sanitiser `_clean_text` (backend/main.py lines 205-214) -/

/-- Validation failures raised with HTTP status 400. -/
inductive ValError where
  | fieldTooLong (maxLen : Nat)
  | nameRequired
  | priceNotInteger
  | priceOutOfRange
deriving DecidableEq, Repr

/-- Whitespace for Python `str.strip()` (ASCII range). -/
def pyIsSpace (c : Char) : Bool :=
  c = ' ' || c = '\t' || c = '\n' || c = '\r' || c = '\x0b' || c = '\x0c'

/-- Strip `pyIsSpace` characters from both ends of a character list. -/
def pyStripChars (l : List Char) : List Char :=
  ((l.dropWhile pyIsSpace).reverse.dropWhile pyIsSpace).reverse

/-- Python `(value or "").strip()`. -/
def pyStrip (s : String) : String :=
  String.mk (pyStripChars s.data)

/-- Body of `_clean_text(value, max_len)`: strip, let the empty result
through, fail with `Field too long (max ...)` when the stripped length
exceeds `max_len`, else return the stripped value. -/
def _clean_text (value : Option String) (max_len : Nat) :
    Except ValError String :=
  let v := pyStrip (value.getD "")
  if v = "" then .ok v
  else if v.length > max_len then .error (.fieldTooLong max_len)
  else .ok v

/-! ## Product fields (backend/main.py lines 217-234) -/

/-- The `price` argument as seen by `int(price)`: either a value that
converts to an integer, or one on which `int()` raises
`TypeError`/`ValueError`. -/
inductive PriceInput where
  | intVal (n : Int)
  | nonInteger
deriving DecidableEq, Repr

/-- Body of `validate_product_fields(name, price, description)`. -/
def validate_product_fields (name : Option String) (price : PriceInput)
    (description : Option String) :
    Except ValError (String × Int × String) :=
  match _clean_text name 200 with
  | .error e => .error e
  | .ok clean_name =>
      if clean_name = "" then .error .nameRequired
      else
        match price with
        | .nonInteger => .error .priceNotInteger
        | .intVal price_int =>
            if price_int ≤ 0 || price_int > 1000000 then
              .error .priceOutOfRange
            else
              match _clean_text description 2000 with
              | .error e => .error e
              | .ok clean_desc => .ok (clean_name, price_int, clean_desc)

/-! ## Filename sanitiser (backend/main.py lines 237-243) -/

/-- Characters after the last `/` of the input (POSIX
`os.path.basename`). -/
def basenameChars (l : List Char) : List Char :=
  l.foldl (fun acc c => if c = '/' then [] else acc.concat c) []

/-- POSIX `os.path.basename` on a string. -/
def pyBasename (s : String) : String :=
  String.mk (basenameChars s.data)

/-- Character allow-list of `secure_filename`:
`c.isalnum() or c in {"_", "-", "."}`. -/
def allowedFileChar (c : Char) : Bool :=
  c.isAlphanum || c = '_' || c = '-' || c = '.'

/-- Body of `secure_filename(filename)`: base name of
`filename or "image"`, filtered to the allow-list, with fallback
`"image"` when the filter empties the string. -/
def secure_filename (filename : String) : String :=
  let base := pyBasename (if filename = "" then "image" else filename)
  let safe := String.mk (base.data.filter allowedFileChar)
  if safe = "" then "image" else safe

/-! ## Upload writer `save_upload_image` (backend/main.py lines 246-278)

The incoming stream is modelled by the list of chunk sizes the loop
`iter(lambda: upload.file.read(1024 * 1024), b"")` yields; the
filesystem effect is modelled by the number of bytes of the stored
file and whether a file remains on disk after the call. -/

/-- Upload failures raised with HTTP status 400. -/
inductive UploadError where
  | badInput
  | unsupportedMediaType
  | payloadTooLarge
deriving DecidableEq, Repr

/-- Observable outcome of `save_upload_image`: the returned reference
or raised exception, the bytes of the file left on disk, and whether a
file is left on disk at all. -/
structure UploadOutcome where
  result : Except UploadError String
  bytesOnDisk : Nat
  fileOnDisk : Bool
deriving Repr

/-- The writing loop of `save_upload_image`: for each chunk, an empty
chunk breaks; otherwise the running count is increased and, when it
exceeds `MAX_IMAGE_SIZE_BYTES`, the partial file is removed and the
413-style failure is raised (`none`); otherwise the chunk is written. -/
def writeLoop : List Nat → Nat → Option Nat
  | [], size => some size
  | c :: rest, size =>
      if c = 0 then some size
      else
        let size := size + c
        if size > MAX_IMAGE_SIZE_BYTES then none
        else writeLoop rest size

/-- Body of `save_upload_image(upload)`: reject a missing/empty
filename, reject a content type outside the allow-list, then derive
`"{timestamp}_{secure_filename(...)}"` and stream the chunks to disk,
deleting the partial file on overflow. -/
def save_upload_image (filename : Option String) (contentType : String)
    (chunks : List Nat) (timestamp : Nat) : UploadOutcome :=
  match filename with
  | none => ⟨.error .badInput, 0, false⟩
  | some fn =>
      if fn = "" then ⟨.error .badInput, 0, false⟩
      else if contentType ∉ ALLOWED_IMAGE_CONTENT_TYPES then
        ⟨.error .unsupportedMediaType, 0, false⟩
      else
        let safe_name := toString timestamp ++ "_" ++ secure_filename fn
        match writeLoop chunks 0 with
        | none => ⟨.error .payloadTooLarge, 0, false⟩
        | some n => ⟨.ok ("/uploads/" ++ safe_name), n, true⟩

/-! ## Lemmas about the rate limiter -/

theorem dropOld_eq_self (now : Nat) (l : List Nat)
    (h : ∀ t ∈ l, now - t ≤ LOGIN_WINDOW_SECONDS) : dropOld now l = l := by
  cases l with
  | nil => rfl
  | cons t rest =>
      have ht := h t (List.mem_cons_self _ _)
      simp only [dropOld]
      rw [if_neg (by omega)]

theorem dropOld_eq_nil (now : Nat) (l : List Nat)
    (h : ∀ t ∈ l, LOGIN_WINDOW_SECONDS < now - t) : dropOld now l = [] := by
  induction l with
  | nil => rfl
  | cons t rest ih =>
      have ht := h t (List.mem_cons_self _ _)
      simp only [dropOld]
      rw [if_pos (by omega)]
      exact ih fun a ha => h a (List.mem_cons_of_mem _ ha)

theorem dropOld_eq_filter (now : Nat) (l : List Nat)
    (hs : l.Pairwise (· ≤ ·)) :
    dropOld now l
      = l.filter (fun t => decide (now - t ≤ LOGIN_WINDOW_SECONDS)) := by
  induction l with
  | nil => rfl
  | cons t rest ih =>
      rcases List.pairwise_cons.mp hs with ⟨hle, hrest⟩
      by_cases hc : LOGIN_WINDOW_SECONDS < now - t
      · have hcf : (decide (now - t ≤ LOGIN_WINDOW_SECONDS)) ≠ true := by
          intro hcontra
          rw [decide_eq_true_eq] at hcontra
          omega
        simp only [dropOld]
        rw [if_pos hc, ih hrest, List.filter_cons, if_neg hcf]
      · have hck : (decide (now - t ≤ LOGIN_WINDOW_SECONDS)) = true := by
          simp only [decide_eq_true_eq]
          omega
        have hall : rest.filter
            (fun a => decide (now - a ≤ LOGIN_WINDOW_SECONDS)) = rest := by
          refine List.filter_eq_self.mpr fun a ha => ?_
          have h1 := hle a ha
          have h2 : now - a ≤ now - t := Nat.sub_le_sub_left h1 now
          simp only [decide_eq_true_eq]
          omega
        simp only [dropOld]
        rw [if_neg hc, List.filter_cons, if_pos hck, hall]

theorem dropOld_subset (now : Nat) (l : List Nat) :
    ∀ t ∈ dropOld now l, t ∈ l := by
  induction l with
  | nil => intro t ht; exact absurd ht (by simp [dropOld])
  | cons a rest ih =>
      intro t ht
      simp only [dropOld] at ht
      by_cases hc : LOGIN_WINDOW_SECONDS < now - a
      · rw [if_pos hc] at ht
        exact List.mem_cons_of_mem _ (ih t ht)
      · rw [if_neg hc] at ht
        exact ht

theorem runChecks_all_allowed :
    ∀ (ts hist : List Nat),
      (∀ a ∈ hist ++ ts, ∀ b ∈ hist ++ ts, b - a ≤ LOGIN_WINDOW_SECONDS) →
      (hist ++ ts).length ≤ MAX_LOGIN_ATTEMPTS →
      runChecks ts hist
        = (List.replicate ts.length CheckResult.allowed, hist ++ ts) := by
  intro ts
  induction ts with
  | nil =>
      intro hist _ _
      simp [runChecks]
  | cons t ts ih =>
      intro hist hwin hlen
      have htmem : t ∈ hist ++ t :: ts := by simp
      have hdrop : dropOld t hist = hist := by
        refine dropOld_eq_self t hist fun a ha => ?_
        exact hwin a (List.mem_append_left _ ha) t htmem
      have hlt : hist.length < MAX_LOGIN_ATTEMPTS := by
        have : hist.length + (ts.length + 1) ≤ MAX_LOGIN_ATTEMPTS := by
          simpa using hlen
        omega
      have hstep : check_login_rate_limit t hist
          = (CheckResult.allowed, hist ++ [t]) := by
        simp only [check_login_rate_limit, hdrop]
        rw [if_neg (by omega)]
      have hrec : runChecks ts (hist ++ [t])
          = (List.replicate ts.length CheckResult.allowed,
             (hist ++ [t]) ++ ts) := by
        refine ih (hist ++ [t]) ?_ ?_
        · intro a ha b hb
          refine hwin a ?_ b ?_
          · simpa [List.append_assoc] using ha
          · simpa [List.append_assoc] using hb
        · simpa [List.append_assoc] using hlen
      simp only [runChecks, hstep, hrec, List.append_assoc, List.length_cons,
        List.replicate_succ, List.singleton_append]

/-! ## Claim theorems for the rate limiter -/

/-- C1: one call to the login rate-limit check first drops every
recorded timestamp older than the 15-minute window (on a
chronologically ordered record this is exactly the front-dropping
loop), then rejects with the 429 `RateLimited` failure without
recording the attempt when at least `MAX_LOGIN_ATTEMPTS = 5`
timestamps remain, and otherwise appends the current time and allows
the attempt.  Consequently a client making at most 5 attempts inside
one 15-minute window is allowed on each of them, a 6th attempt inside
the same window is rejected and leaves the record unchanged, and once
the window has elapsed past every recorded attempt the next check is
allowed again. -/
theorem C1_login_rate_limit :
    (∀ (now : Nat) (l : List Nat), l.Pairwise (· ≤ ·) →
      check_login_rate_limit now l
        = (let kept := l.filter (fun t => decide (now - t ≤ LOGIN_WINDOW_SECONDS))
           if MAX_LOGIN_ATTEMPTS ≤ kept.length then
             (CheckResult.rateLimited, kept)
           else (CheckResult.allowed, kept ++ [now])))
    ∧ (∀ ts : List Nat,
        (∀ a ∈ ts, ∀ b ∈ ts, b - a ≤ LOGIN_WINDOW_SECONDS) →
        ts.length ≤ MAX_LOGIN_ATTEMPTS →
        runChecks ts [] = (List.replicate ts.length CheckResult.allowed, ts))
    ∧ (∀ (ts : List Nat) (t6 : Nat),
        ts.length = MAX_LOGIN_ATTEMPTS →
        (∀ a ∈ ts, t6 - a ≤ LOGIN_WINDOW_SECONDS) →
        check_login_rate_limit t6 ts = (CheckResult.rateLimited, ts))
    ∧ (∀ (ts : List Nat) (t : Nat),
        (∀ a ∈ ts, LOGIN_WINDOW_SECONDS < t - a) →
        check_login_rate_limit t ts = (CheckResult.allowed, [t])) := by
  refine ⟨?_, ?_, ?_, ?_⟩
  · intro now l hs
    simp only [check_login_rate_limit, dropOld_eq_filter now l hs]
  · intro ts hwin hlen
    exact runChecks_all_allowed ts [] (by simpa using hwin) (by simpa using hlen)
  · intro ts t6 hlen hwin
    have hdrop : dropOld t6 ts = ts := dropOld_eq_self t6 ts hwin
    simp only [check_login_rate_limit, hdrop]
    rw [if_pos (by omega)]
  · intro ts t hold
    have hdrop : dropOld t ts = [] := dropOld_eq_nil t ts hold
    simp only [check_login_rate_limit, hdrop]
    rw [if_neg (by simp [MAX_LOGIN_ATTEMPTS])]
    rfl

/-- Witness for C1 at concrete inputs: a 6th attempt at second 1000
after five attempts between seconds 100 and 400 is rejected and
recorded nowhere; five attempts inside one window are all allowed; a
fresh check after the window has elapsed past both old attempts is
allowed and resets the record; and the filter characterisation at a
sorted record. -/
theorem C1_login_rate_limit_witness :
    check_login_rate_limit 1000 [100, 200, 250, 300, 400]
      = (CheckResult.rateLimited, [100, 200, 250, 300, 400])
    ∧ runChecks [0, 100, 200, 300, 400] []
      = (List.replicate 5 CheckResult.allowed, [0, 100, 200, 300, 400])
    ∧ check_login_rate_limit 1000 [0, 50]
      = (CheckResult.allowed, [1000])
    ∧ check_login_rate_limit 900 [10, 20]
      = (CheckResult.allowed, [10, 20, 900]) := by
  refine ⟨?_, ?_, ?_, ?_⟩
  · exact C1_login_rate_limit.2.2.1 [100, 200, 250, 300, 400] 1000
      (by decide) (by decide)
  · exact C1_login_rate_limit.2.1 [0, 100, 200, 300, 400]
      (by decide) (by decide)
  · exact C1_login_rate_limit.2.2.2 [0, 50] 1000 (by decide)
  · rw [C1_login_rate_limit.1 900 [10, 20] (by decide)]
    decide

/-- C9: every rate-limit check preserves the invariant that a client's
attempt record is chronologically ordered (entries are appended with
the current time and removed only from the front) and holds at most
`MAX_LOGIN_ATTEMPTS = 5` entries; on an ordered record the
front-dropping loop removes exactly the entries older than the
window. -/
theorem C9_attempt_record_invariant :
    ∀ (now : Nat) (l : List Nat),
      l.Pairwise (· ≤ ·) → (∀ t ∈ l, t ≤ now) →
      l.length ≤ MAX_LOGIN_ATTEMPTS →
      ((check_login_rate_limit now l).2.Pairwise (· ≤ ·)
        ∧ (∀ t ∈ (check_login_rate_limit now l).2, t ≤ now)
        ∧ (check_login_rate_limit now l).2.length ≤ MAX_LOGIN_ATTEMPTS
        ∧ dropOld now l
            = l.filter (fun t => decide (now - t ≤ LOGIN_WINDOW_SECONDS))) := by
  intro now l hs hle hlen
  have hfilter := dropOld_eq_filter now l hs
  have hdsorted : (dropOld now l).Pairwise (· ≤ ·) := by
    rw [hfilter]; exact hs.filter _
  have hdle : ∀ t ∈ dropOld now l, t ≤ now :=
    fun t ht => hle t (dropOld_subset now l t ht)
  have hdlen : (dropOld now l).length ≤ l.length := by
    rw [hfilter]; exact l.length_filter_le _
  simp only [check_login_rate_limit]
  by_cases hc : MAX_LOGIN_ATTEMPTS ≤ (dropOld now l).length
  · rw [if_pos hc]
    refine ⟨hdsorted, hdle, ?_, hfilter⟩
    show (dropOld now l).length ≤ MAX_LOGIN_ATTEMPTS
    omega
  · rw [if_neg hc]
    refine ⟨?_, ?_, ?_, hfilter⟩
    · rw [List.pairwise_append]
      exact ⟨hdsorted, List.pairwise_singleton _ _,
        fun a ha b hb => by
          rw [List.mem_singleton] at hb
          subst hb
          exact hdle a ha⟩
    · intro t ht
      rcases List.mem_append.mp ht with h | h
      · exact hdle t h
      · rw [List.mem_singleton] at h
        omega
    · rw [List.length_append, List.length_singleton]
      omega

/-- Witness for C9 at a concrete ordered record of three attempts. -/
theorem C9_attempt_record_invariant_witness :
    ((check_login_rate_limit 1000 [200, 300, 400]).2.Pairwise (· ≤ ·)
      ∧ (∀ t ∈ (check_login_rate_limit 1000 [200, 300, 400]).2, t ≤ 1000)
      ∧ (check_login_rate_limit 1000 [200, 300, 400]).2.length
          ≤ MAX_LOGIN_ATTEMPTS
      ∧ dropOld 1000 [200, 300, 400]
          = [200, 300, 400].filter
              (fun t => decide (1000 - t ≤ LOGIN_WINDOW_SECONDS))) :=
  C9_attempt_record_invariant 1000 [200, 300, 400]
    (by decide) (by decide) (by decide)

/-! ## Lemmas about the session store -/

theorem lookupSession_removeSession_self (s : List (String × Nat))
    (tok : String) : lookupSession (removeSession s tok) tok = none := by
  induction s with
  | nil => rfl
  | cons p rest ih =>
      by_cases h : p.1 = tok
      · have ih2 : lookupSession (List.filter (fun q => q.1 != tok) rest) tok
            = none := by
          rw [show List.filter (fun q => q.1 != tok) rest
            = removeSession rest tok from rfl]
          exact ih
        simp [removeSession, h, ih2]
      · have hne : (p.1 != tok) = true := by simp [h]
        simp only [removeSession, List.filter_cons, hne, if_pos]
        have hbeq : (p.1 == tok) = false := by simp [h]
        simp [lookupSession, List.find?, hbeq, removeSession, ih]

theorem lookupSession_issueSession_self (s : List (String × Nat))
    (tok : String) (now : Nat) :
    lookupSession (issueSession tok now s) tok = some now := by
  simp [lookupSession, issueSession, List.find?]

theorem require_admin_after_remove (now : Nat) (tok : String)
    (s : List (String × Nat)) (h : tok ≠ "") :
    require_admin now (some tok) (removeSession s tok)
      = (.error .unauthorized, removeSession s tok) := by
  simp only [require_admin]
  rw [if_neg h, lookupSession_removeSession_self]

/-! ## Claim theorems for the session store -/

/-- C2: a session token is accepted by the admin check immediately
after it is issued by a successful login; it is rejected as
`Unauthorized` at any later time once a logout has revoked it; and it
is rejected as expired when validated more than `SESSION_AGE` (7 days)
after issue with no intervening revoke. -/
theorem C2_session_lifecycle :
    ∀ (tok : String) (now later : Nat) (s : List (String × Nat)),
      tok ≠ "" →
      (require_admin now (some tok) (issueSession tok now s)
        = (.ok (), issueSession tok now s))
      ∧ (∀ s2 : List (String × Nat),
          (require_admin later (some tok)
              (admin_logout (some tok) s2)).1 = .error .unauthorized)
      ∧ (SESSION_AGE < later - now →
          (require_admin later (some tok) (issueSession tok now s)).1
            = .error .sessionExpired) := by
  intro tok now later s htok
  refine ⟨?_, ?_, ?_⟩
  · simp only [require_admin, lookupSession_issueSession_self]
    rw [if_neg htok]
    have hc : ¬ (now - now > SESSION_AGE) := by omega
    rw [if_neg hc]
  · intro s2
    simp only [admin_logout]
    rw [if_neg htok]
    cases hfind : lookupSession s2 tok with
    | none =>
        simp only [require_admin, hfind]
        rw [if_neg htok]
    | some issued =>
        rw [require_admin_after_remove later tok s2 htok]
  · intro hage
    simp only [require_admin, lookupSession_issueSession_self]
    rw [if_neg htok]
    have hc : later - now > SESSION_AGE := by omega
    rw [if_pos hc]

/-- Witness for C2: token `"t"` issued at second 0 into the empty
store validates at second 0, fails as `Unauthorized` after logout, and
fails as expired at second 604801 (7 days plus one second). -/
theorem C2_session_lifecycle_witness :
    (require_admin 0 (some "t") (issueSession "t" 0 [])
      = (.ok (), issueSession "t" 0 []))
    ∧ ((require_admin 604801 (some "t")
          (admin_logout (some "t") (issueSession "t" 0 []))).1
        = .error .unauthorized)
    ∧ ((require_admin 604801 (some "t") (issueSession "t" 0 [])).1
        = .error .sessionExpired) :=
  have h := C2_session_lifecycle "t" 0 604801 [] (by decide)
  ⟨h.1, h.2.1 (issueSession "t" 0 []), h.2.2 (by decide)⟩

/-- C6: when the admin check finds a present token older than
`SESSION_AGE` it signals the `Session expired` failure — a constructor
distinct from `Unauthorized` — and evicts the token's entry, so a
second check of the same token against the updated store signals
`Unauthorized` instead. -/
theorem C6_expired_token_evicted :
    ∀ (tok : String) (now now2 issued : Nat) (s : List (String × Nat)),
      tok ≠ "" → lookupSession s tok = some issued →
      SESSION_AGE < now - issued →
      (require_admin now (some tok) s
          = (.error .sessionExpired, removeSession s tok))
      ∧ ((require_admin now2 (some tok) (removeSession s tok)).1
          = .error .unauthorized)
      ∧ AuthError.sessionExpired ≠ AuthError.unauthorized := by
  intro tok now now2 issued s htok hfind hage
  refine ⟨?_, ?_, by decide⟩
  · simp only [require_admin, hfind]
    rw [if_neg htok]
    have hc : now - issued > SESSION_AGE := by omega
    rw [if_pos hc]
  · rw [require_admin_after_remove now2 tok s htok]

/-- Witness for C6: the store holding token `"t"` issued at second 0,
checked at second 604801 and again at second 604802. -/
theorem C6_expired_token_evicted_witness :
    (require_admin 604801 (some "t") [("t", 0)]
        = (.error .sessionExpired, removeSession [("t", 0)] "t"))
    ∧ ((require_admin 604802 (some "t")
          (removeSession [("t", 0)] "t")).1 = .error .unauthorized)
    ∧ AuthError.sessionExpired ≠ AuthError.unauthorized :=
  C6_expired_token_evicted "t" 604801 604802 0 [("t", 0)]
    (by decide) (by decide) (by decide)

/-! ## Claim theorems for the field sanitiser and product validation -/

/-- C8: the sanitiser returns its input stripped of surrounding
whitespace, lets an all-whitespace input through as the empty string,
and fails with `FieldTooLong max_len` exactly when the stripped length
strictly exceeds `max_len` — in particular a stripped string of
exactly the maximum length is accepted. -/
theorem C8_clean_text :
    ∀ (value : Option String) (max_len : Nat),
      (_clean_text value max_len = .error (.fieldTooLong max_len)
        ↔ max_len < (pyStrip (value.getD "")).length)
      ∧ ((pyStrip (value.getD "")).length ≤ max_len →
          _clean_text value max_len = .ok (pyStrip (value.getD ""))) := by
  intro value max_len
  simp only [_clean_text]
  by_cases hv : pyStrip (value.getD "") = ""
  · rw [if_pos hv]
    refine ⟨⟨fun hcontra => absurd hcontra (by simp), fun hlen => ?_⟩,
      fun _ => rfl⟩
    rw [hv] at hlen
    simp at hlen
  · rw [if_neg hv]
    by_cases hlen : (pyStrip (value.getD "")).length > max_len
    · rw [if_pos hlen]
      exact ⟨⟨fun _ => hlen, fun _ => rfl⟩,
        fun h2 => absurd h2 (by omega)⟩
    · rw [if_neg hlen]
      exact ⟨⟨fun hcontra => absurd hcontra (by simp), fun h2 => absurd h2 hlen⟩,
        fun _ => rfl⟩

/-- Witness for C8: a two-character payload against a cap of 2 is
accepted stripped, an all-whitespace field normalises to the empty
string, and a three-character payload against a cap of 2 fails with
`FieldTooLong 2`. -/
theorem C8_clean_text_witness :
    (_clean_text (some "  hi  ") 2 = .ok "hi")
    ∧ (_clean_text (some "   ") 5 = .ok "")
    ∧ (_clean_text (some "abc") 2 = .error (.fieldTooLong 2)) := by
  refine ⟨?_, ?_, ?_⟩
  · rw [(C8_clean_text (some "  hi  ") 2).2 (by decide)]
    rfl
  · rw [(C8_clean_text (some "   ") 5).2 (by decide)]
    rfl
  · exact (C8_clean_text (some "abc") 2).1.mpr (by decide)

/-- C7: with a valid name and description, product-field validation
succeeds on an integer price exactly when it lies in
`[1, 1000000]`; an out-of-range integer fails with the
`Price must be between 1 and 1,000,000.` error and a value `int()`
cannot convert fails with the `Price must be an integer.` error (both
HTTP 400). -/
theorem C7_price_validation :
    ∀ (n : Int) (name description : Option String) (nm d : String),
      _clean_text name 200 = .ok nm → nm ≠ "" →
      _clean_text description 2000 = .ok d →
      ((validate_product_fields name (.intVal n) description
          = .ok (nm, n, d)) ↔ (1 ≤ n ∧ n ≤ 1000000))
      ∧ ((n < 1 ∨ 1000000 < n) →
          validate_product_fields name (.intVal n) description
            = .error .priceOutOfRange)
      ∧ (validate_product_fields name .nonInteger description
          = .error .priceNotInteger) := by
  intro n name description nm d hname hnm hdesc
  have hInt : ∀ k : Int,
      validate_product_fields name (.intVal k) description
        = if k ≤ 0 || k > 1000000 then .error .priceOutOfRange
          else .ok (nm, k, d) := by
    intro k
    simp only [validate_product_fields, hname, hdesc]
    rw [if_neg hnm]
  have hNon : validate_product_fields name .nonInteger description
      = .error .priceNotInteger := by
    simp only [validate_product_fields, hname]
    rw [if_neg hnm]
  refine ⟨?_, ?_, hNon⟩
  · rw [hInt]
    constructor
    · intro h
      by_contra hno
      have hcond : (decide (n ≤ 0) || decide (n > 1000000)) = true := by
        simp only [Bool.or_eq_true, decide_eq_true_eq]
        omega
      rw [if_pos hcond] at h
      exact absurd h (by simp)
    · rintro ⟨h1, h2⟩
      have hcond : ¬ ((decide (n ≤ 0) || decide (n > 1000000)) = true) := by
        simp only [Bool.or_eq_true, decide_eq_true_eq]
        omega
      rw [if_neg hcond]
  · intro hrange
    rw [hInt]
    have hcond : (decide (n ≤ 0) || decide (n > 1000000)) = true := by
      simp only [Bool.or_eq_true, decide_eq_true_eq]
      omega
    rw [if_pos hcond]

/-- Witness for C7: with name `"Widget"` and empty description, price
500000 validates, price 0 is rejected as out of range, and a
non-integer price is rejected as not an integer. -/
theorem C7_price_validation_witness :
    (validate_product_fields (some "Widget") (.intVal 500000) (some "")
        = .ok ("Widget", 500000, ""))
    ∧ (validate_product_fields (some "Widget") (.intVal 0) (some "")
        = .error .priceOutOfRange)
    ∧ (validate_product_fields (some "Widget") .nonInteger (some "")
        = .error .priceNotInteger) := by
  refine ⟨?_, ?_, ?_⟩
  · exact (C7_price_validation 500000 (some "Widget") (some "") "Widget" ""
      (by rfl) (by decide) (by rfl)).1.mpr (by decide)
  · exact (C7_price_validation 0 (some "Widget") (some "") "Widget" ""
      (by rfl) (by decide) (by rfl)).2.1 (Or.inl (by decide))
  · exact (C7_price_validation 0 (some "Widget") (some "") "Widget" ""
      (by rfl) (by decide) (by rfl)).2.2

/-! ## Lemmas about the filename sanitiser -/

theorem basenameChars_append_slash (l1 l2 : List Char) :
    basenameChars (l1 ++ '/' :: l2) = basenameChars l2 := by
  simp only [basenameChars, List.foldl_append, List.foldl_cons]
  simp

/-! ## Claim theorem for the filename sanitiser -/

/-- C5: the sanitised name discards every directory component (a
leading `dir/` prefix never changes the result), keeps only characters
that are alphanumeric or in the set underscore / hyphen / dot, is
never empty thanks to the `"image"` fallback, contains no `/`, and in
particular maps `"../../etc/passwd"` to the bare `"passwd"`; the
on-disk name prefixes it with a timestamp. -/
theorem C5_secure_filename :
    (∀ p s : String, secure_filename (p ++ "/" ++ s) = secure_filename s)
    ∧ (∀ fn : String, secure_filename fn ≠ "")
    ∧ (∀ (fn : String) (c : Char),
        c ∈ (secure_filename fn).data → allowedFileChar c = true)
    ∧ (∀ (fn : String) (c : Char), c ∈ (secure_filename fn).data → c ≠ '/')
    ∧ secure_filename "../../etc/passwd" = "passwd" := by
  have hchars : ∀ (fn : String) (c : Char),
      c ∈ (secure_filename fn).data → allowedFileChar c = true := by
    intro fn c hc
    simp only [secure_filename] at hc
    by_cases h : String.mk
        (List.filter allowedFileChar
          (pyBasename (if fn = "" then "image" else fn)).data) = ""
    · rw [if_pos h] at hc
      have hall : ∀ x ∈ ("image" : String).data, allowedFileChar x = true := by
        decide
      exact hall c hc
    · rw [if_neg h] at hc
      exact (List.mem_filter.mp hc).2
  refine ⟨?_, ?_, hchars, ?_, by decide⟩
  · intro p s
    have hdata : (p ++ "/" ++ s).data = p.data ++ '/' :: s.data := by
      simp
    have hne : p ++ "/" ++ s ≠ "" := by
      intro hcontra
      have : (p ++ "/" ++ s).data = ([] : List Char) := by rw [hcontra]
      rw [hdata] at this
      simp at this
    have hbase : pyBasename (p ++ "/" ++ s) = pyBasename s := by
      by_cases hs : s = ""
      · subst hs
        simp only [pyBasename, hdata]
        rw [basenameChars_append_slash]
      · simp only [pyBasename, hdata]
        rw [basenameChars_append_slash]
    by_cases hs : s = ""
    · subst hs
      simp only [secure_filename]
      rw [if_neg hne, hbase]
      rfl
    · simp only [secure_filename]
      rw [if_neg hne, if_neg hs, hbase]
  · intro fn
    simp only [secure_filename]
    by_cases h : String.mk
        (List.filter allowedFileChar
          (pyBasename (if fn = "" then "image" else fn)).data) = ""
    · rw [if_pos h]
      decide
    · rw [if_neg h]
      exact h
  · intro fn c hc heq
    have := hchars fn c hc
    rw [heq] at this
    exact absurd this (by decide)

/-- Witness for C5 at concrete inputs: a directory prefix is
discarded, the result for `"x/y"` is the non-empty `"y"` whose only
character is in the allow-list and is not a separator. -/
theorem C5_secure_filename_witness :
    secure_filename ("a" ++ "/" ++ "b c.png") = secure_filename "b c.png"
    ∧ secure_filename "x/y" ≠ ""
    ∧ allowedFileChar 'y' = true
    ∧ ('y' : Char) ≠ '/' :=
  ⟨C5_secure_filename.1 "a" "b c.png",
   C5_secure_filename.2.1 "x/y",
   C5_secure_filename.2.2.1 "x/y" 'y' (by decide),
   C5_secure_filename.2.2.2.1 "x/y" 'y' (by decide)⟩

/-! ## Lemmas about the upload writing loop -/

theorem writeLoop_eq_some (chunks : List Nat) :
    ∀ size : Nat, (∀ c ∈ chunks, 0 < c) →
      size + chunks.sum ≤ MAX_IMAGE_SIZE_BYTES →
      writeLoop chunks size = some (size + chunks.sum) := by
  induction chunks with
  | nil =>
      intro size _ _
      simp [writeLoop]
  | cons c rest ih =>
      intro size hpos h
      have hc := hpos c (List.mem_cons_self _ _)
      rw [List.sum_cons] at h
      simp only [writeLoop]
      have h0 : ¬ (c = 0) := by omega
      rw [if_neg h0]
      have hov : ¬ (size + c > MAX_IMAGE_SIZE_BYTES) := by omega
      rw [if_neg hov]
      rw [ih (size + c) (fun a ha => hpos a (List.mem_cons_of_mem _ ha))
        (by omega)]
      rw [List.sum_cons]
      congr 1
      omega

theorem writeLoop_eq_none (chunks : List Nat) :
    ∀ size : Nat, (∀ c ∈ chunks, 0 < c) →
      size ≤ MAX_IMAGE_SIZE_BYTES →
      MAX_IMAGE_SIZE_BYTES < size + chunks.sum →
      writeLoop chunks size = none := by
  induction chunks with
  | nil =>
      intro size _ hsz h
      rw [List.sum_nil] at h
      exact absurd hsz (by omega)
  | cons c rest ih =>
      intro size hpos hsz h
      have hc := hpos c (List.mem_cons_self _ _)
      rw [List.sum_cons] at h
      simp only [writeLoop]
      have h0 : ¬ (c = 0) := by omega
      rw [if_neg h0]
      by_cases hov : size + c > MAX_IMAGE_SIZE_BYTES
      · rw [if_pos hov]
      · rw [if_neg hov]
        exact ih (size + c) (fun a ha => hpos a (List.mem_cons_of_mem _ ha))
          (by omega) (by omega)

/-! ## Claim theorems for the upload writer -/

/-- C3: for an upload with a filename and an allowed declared content
type, delivered in non-empty chunks, a stream whose accumulated byte
count exceeds `MAX_IMAGE_SIZE_BYTES` (5 MiB) fails with the
`Image too large` error and leaves no partial file on disk, while a
stream of total size at most 5 MiB succeeds, stores every byte, and
returns a reference ending in the timestamped sanitised filename. -/
theorem C3_upload_size_limit :
    ∀ (fn ct : String) (chunks : List Nat) (ts : Nat),
      fn ≠ "" → ct ∈ ALLOWED_IMAGE_CONTENT_TYPES →
      (∀ c ∈ chunks, 0 < c) →
      ((MAX_IMAGE_SIZE_BYTES < chunks.sum →
          save_upload_image (some fn) ct chunks ts
            = ⟨.error .payloadTooLarge, 0, false⟩)
        ∧ (chunks.sum ≤ MAX_IMAGE_SIZE_BYTES →
            (save_upload_image (some fn) ct chunks ts
              = ⟨.ok ("/uploads/" ++ (toString ts ++ "_" ++ secure_filename fn)),
                 chunks.sum, true⟩)
            ∧ (∃ pre : String,
                "/uploads/" ++ (toString ts ++ "_" ++ secure_filename fn)
                  = pre ++ secure_filename fn))) := by
  intro fn ct chunks ts hfn hct hpos
  have hnotin : ¬ (ct ∉ ALLOWED_IMAGE_CONTENT_TYPES) := not_not_intro hct
  constructor
  · intro hover
    have hw : writeLoop chunks 0 = none :=
      writeLoop_eq_none chunks 0 hpos (Nat.zero_le _) (by omega)
    simp only [save_upload_image, hw]
    rw [if_neg hfn, if_neg hnotin]
  · intro hle
    have hw : writeLoop chunks 0 = some chunks.sum := by
      have := writeLoop_eq_some chunks 0 hpos (by omega)
      rwa [Nat.zero_add] at this
    refine ⟨?_, ⟨"/uploads/" ++ (toString ts ++ "_"), ?_⟩⟩
    · simp only [save_upload_image, hw]
      rw [if_neg hfn, if_neg hnotin]
    · exact (String.append_assoc _ _ _).symm

/-- Witness for C3: a 4 MiB JPEG stream in four 1 MiB chunks succeeds
with the expected reference, and a 6 MiB stream in six 1 MiB chunks
fails with `payloadTooLarge` leaving nothing on disk. -/
theorem C3_upload_size_limit_witness :
    (save_upload_image (some "cat.png") "image/jpeg"
        [1048576, 1048576, 1048576, 1048576] 7
      = ⟨.ok ("/uploads/" ++ (toString 7 ++ "_" ++ secure_filename "cat.png")),
         ([1048576, 1048576, 1048576, 1048576] : List Nat).sum, true⟩)
    ∧ (save_upload_image (some "cat.png") "image/jpeg"
        [1048576, 1048576, 1048576, 1048576, 1048576, 1048576] 7
      = ⟨.error .payloadTooLarge, 0, false⟩) :=
  ⟨((C3_upload_size_limit "cat.png" "image/jpeg"
      [1048576, 1048576, 1048576, 1048576] 7
      (by decide) (by decide) (by decide)).2 (by decide)).1,
   (C3_upload_size_limit "cat.png" "image/jpeg"
      [1048576, 1048576, 1048576, 1048576, 1048576, 1048576] 7
      (by decide) (by decide) (by decide)).1 (by decide)⟩

/-- C4: the upload pre-checks run in order — a missing or empty
filename fails with the `Image file is required` error no matter what
the content type is, and otherwise a declared content type outside the
allow-list (exactly JPEG, PNG and WebP) fails with the
`Unsupported image type` error; in both cases nothing is written to
disk. -/
theorem C4_upload_precheck_order :
    ∀ (fn ct : String) (chunks : List Nat) (ts : Nat),
      (save_upload_image none ct chunks ts = ⟨.error .badInput, 0, false⟩)
      ∧ (save_upload_image (some "") ct chunks ts
          = ⟨.error .badInput, 0, false⟩)
      ∧ (∀ c2 : String, c2 ∈ ALLOWED_IMAGE_CONTENT_TYPES ↔
          (c2 = "image/jpeg" ∨ c2 = "image/png" ∨ c2 = "image/webp"))
      ∧ (fn ≠ "" → ct ∉ ALLOWED_IMAGE_CONTENT_TYPES →
          save_upload_image (some fn) ct chunks ts
            = ⟨.error .unsupportedMediaType, 0, false⟩) := by
  intro fn ct chunks ts
  refine ⟨rfl, rfl, ?_, ?_⟩
  · intro c2
    simp [ALLOWED_IMAGE_CONTENT_TYPES]
  · intro hfn hct
    simp only [save_upload_image]
    rw [if_neg hfn, if_pos hct]

/-- Witness for C4: a PDF declared type with a present filename is
rejected as unsupported before any bytes are written. -/
theorem C4_upload_precheck_order_witness :
    save_upload_image (some "cat.png") "application/pdf" [100] 5
      = ⟨.error .unsupportedMediaType, 0, false⟩ :=
  (C4_upload_precheck_order "cat.png" "application/pdf" [100] 5).2.2.2
    (by decide) (by decide)

end Storefront
